import Mathlib

/-!
Shallow embedding of the Signal Scoring & Trade-Plan Engine of the
AlmadenCapMgmt/M2 repository.  Python floats are modelled as rationals;
dictionaries whose keys may be absent are modelled with `Option`.
Each definition is translated from the named source function.
-/

namespace BitcoinModel

/-- Health status values reported by data providers and scenario models
(`health_check` methods across src/bitcoin_model). -/
inductive Health where
  | healthy
  | degraded
  | unknown
  | error
deriving DecidableEq

/-- Per-model reduction of provider statuses, from
`FedPivotModel.health_check` (src/bitcoin_model/models/fed_pivot.py lines
343-349) and the identical code in `M2MinerModel.health_check`:
all healthy gives healthy, any error gives error, otherwise degraded. -/
def model_health_status (statuses : List Health) : Health :=
  if statuses.all (fun t => decide (t = Health.healthy)) then Health.healthy
  else if statuses.any (fun t => decide (t = Health.error)) then Health.error
  else Health.degraded

/-- One step of the orchestrator health loop, from
`BitcoinMacroModel.health_check` (src/bitcoin_model/core.py lines 170-183).
`none` models the scenario health call raising an exception, in which case
the overall status is assigned error; a returned status other than healthy
assigns degraded; a healthy return leaves the accumulator unchanged. -/
def healthStep (acc : Health) (o : Option Health) : Health :=
  match o with
  | none => Health.error
  | some s => if s = Health.healthy then acc else Health.degraded

/-- Overall status computed by `BitcoinMacroModel.health_check`
(src/bitcoin_model/core.py lines 163-185): a fold of `healthStep`
over the scenario outcomes, starting from healthy. -/
def orchestratorStatus (outcomes : List (Option Health)) : Health :=
  outcomes.foldl healthStep Health.healthy

/-- Signal summary carried by every analysis result
(the `signals` sub-dictionary consumed by src/bitcoin_model/core.py). -/
structure Signals where
  buy_signal : Bool
  combined_score : ℚ
deriving DecidableEq

/-- Entry of the `get_all_signals` mapping: the analysis result of one
registered scenario, with `isError` true when the result carries an
error field (src/bitcoin_model/core.py lines 116-121). -/
structure ResultEntry where
  signals : Signals
  isError : Bool
deriving DecidableEq

/-- Translation of one iteration of the `get_all_signals` loop
(src/bitcoin_model/core.py lines 112-121): a scenario whose analysis
raises (`none`) is recorded as an error result with `buy_signal` false and
`combined_score` 0; otherwise the analysis result is recorded as is. -/
def entryOf (o : Option Signals) : ResultEntry :=
  match o with
  | some s => { signals := s, isError := false }
  | none => { signals := { buy_signal := false, combined_score := 0 }, isError := true }

/-- Translation of `BitcoinMacroModel.get_all_signals`
(src/bitcoin_model/core.py lines 100-123), over the per-scenario analysis
outcomes in registration order. -/
def get_all_signals (outcomes : List (Option Signals)) : List ResultEntry :=
  outcomes.map entryOf

/-- One step of the `get_strongest_signal` loop
(src/bitcoin_model/core.py lines 140-145): a result without an error field
replaces the current best exactly when its combined score strictly
exceeds the running maximum. -/
def strongestStep (acc : Option ResultEntry × ℚ) (e : ResultEntry) : Option ResultEntry × ℚ :=
  if e.isError = false ∧ acc.2 < e.signals.combined_score then (some e, e.signals.combined_score)
  else acc

/-- Fold of `strongestStep` with `strongest = None` and `max_score = 0.0`
(src/bitcoin_model/core.py lines 137-145). -/
def strongestScan (entries : List ResultEntry) : Option ResultEntry × ℚ :=
  entries.foldl strongestStep (none, 0)

/-- Translation of `BitcoinMacroModel.get_strongest_signal`
(src/bitcoin_model/core.py lines 125-154), including the sentinel returned
when the scan found nothing. -/
def get_strongest_signal (outcomes : List (Option Signals)) : ResultEntry :=
  match (strongestScan (get_all_signals outcomes)).1 with
  | some e => e
  | none => { signals := { buy_signal := false, combined_score := 0 }, isError := true }

/-- Pivot direction labels used by `FREDClient.detect_fed_pivot`
(src/bitcoin_model/data_providers/fred_client.py line 182). -/
inductive PivotDirection where
  | cutting
  | hiking
  | neutral
deriving DecidableEq

/-- Fed policy snapshot assembled by `FedPivotModel.get_fed_data`
(src/bitcoin_model/models/fed_pivot.py lines 43-75). -/
structure FedData where
  fed_funds_rate : Option ℚ
  pivot_detected : Bool
  pivot_direction : PivotDirection
  pivot_magnitude : ℚ
deriving DecidableEq

/-- Settings constant `FED_RATE_THRESHOLDS` entry `ultra_low`
(src/bitcoin_model/config/settings.py line 63). -/
def fedRateUltraLow : ℚ := 1

/-- Settings constant `FED_RATE_THRESHOLDS` entry `low`. -/
def fedRateLow : ℚ := 3

/-- Settings constant `FED_RATE_THRESHOLDS` entry `neutral`. -/
def fedRateNeutral : ℚ := 5

/-- Settings constant `EXCHANGE_RESERVE_THRESHOLDS` entry `critical_low`
(src/bitcoin_model/config/settings.py line 47). -/
def reserveCriticalLow : ℚ := 2350000

/-- Settings constant `EXCHANGE_RESERVE_THRESHOLDS` entry `low`. -/
def reserveLow : ℚ := 2500000

/-- Settings constant `EXCHANGE_RESERVE_THRESHOLDS` entry `high`. -/
def reserveHigh : ℚ := 2800000

/-- Settings constant `EXCHANGE_RESERVE_THRESHOLDS` entry `critical_high`. -/
def reserveCriticalHigh : ℚ := 3000000

/-- Settings constant `M2_THRESHOLDS` entry `extreme_expansion`
(src/bitcoin_model/config/settings.py line 55). -/
def m2Extreme : ℚ := 15/100

/-- Settings constant `M2_THRESHOLDS` entry `strong_expansion`. -/
def m2Strong : ℚ := 10/100

/-- Settings constant `M2_THRESHOLDS` entry `normal_expansion`. -/
def m2Normal : ℚ := 5/100

/-- Settings constant `M2_THRESHOLDS` entry `contraction`. -/
def m2Contraction : ℚ := 0

/-- Result of `Settings.get_signal_threshold(1)`
(src/bitcoin_model/config/settings.py lines 41, 91-94). -/
def signalThreshold1 : ℚ := 70/100

/-- Result of `Settings.get_signal_threshold(2)`. -/
def signalThreshold2 : ℚ := 75/100

/-- Translation of `FREDClient.detect_fed_pivot`
(src/bitcoin_model/data_providers/fred_client.py lines 177-186) applied to
the averaged rate change: pivot flag, direction, magnitude.  The magnitude
is the absolute value of the rate change. -/
def detect_fed_pivot (rateChange : ℚ) : Bool × PivotDirection × ℚ :=
  (decide (1/2 < |rateChange|),
   if rateChange < -(1/4) then PivotDirection.cutting
   else if 1/4 < rateChange then PivotDirection.hiking
   else PivotDirection.neutral,
   |rateChange|)

/-- Translation of `FedPivotModel.get_fed_data`
(src/bitcoin_model/models/fed_pivot.py lines 43-75), from the provider
outputs: the current rate (possibly unavailable) and the averaged rate
change feeding the pivot detector. -/
def get_fed_data (rate : Option ℚ) (rateChange : ℚ) : FedData :=
  { fed_funds_rate := rate
    pivot_detected := (detect_fed_pivot rateChange).1
    pivot_direction := (detect_fed_pivot rateChange).2.1
    pivot_magnitude := (detect_fed_pivot rateChange).2.2 }

/-- Base score from the rate level, `FedPivotModel.calculate_fed_score`
(src/bitcoin_model/models/fed_pivot.py lines 141-149). -/
def baseFedScore (rate : ℚ) : ℚ :=
  if rate < fedRateUltraLow then 8/10
  else if rate < fedRateLow then 5/10
  else if rate < fedRateNeutral then 3/10
  else 1/10

/-- Directional multiplier of `FedPivotModel.calculate_fed_score`
(src/bitcoin_model/models/fed_pivot.py lines 151-163). -/
def directionMultiplier (detected : Bool) (dir : PivotDirection) (mag : ℚ) : ℚ :=
  if detected then
    if dir = PivotDirection.cutting then 3/2 + min (1/2) (mag / 2)
    else if dir = PivotDirection.hiking then 3/10
    else 1
  else if dir = PivotDirection.cutting then 6/5
  else 1

/-- Translation of `FedPivotModel.calculate_fed_score`
(src/bitcoin_model/models/fed_pivot.py lines 122-172): 0 when the rate is
unavailable, otherwise the base score times the directional multiplier,
clamped to at most 1. -/
def calculate_fed_score (fd : FedData) : ℚ :=
  match fd.fed_funds_rate with
  | none => 0
  | some rate =>
    min 1 (baseFedScore rate * directionMultiplier fd.pivot_detected fd.pivot_direction fd.pivot_magnitude)

/-- Reserve level labels of `FedPivotModel.get_exchange_reserves`
(src/bitcoin_model/models/fed_pivot.py lines 93-107). -/
inductive ReserveLevel where
  | critical_low
  | low
  | high
  | critical_high
  | normal
deriving DecidableEq

/-- Reserve classification of `FedPivotModel.get_exchange_reserves`
(src/bitcoin_model/models/fed_pivot.py lines 93-107). -/
def classifyReserves (reserves : ℚ) : ReserveLevel × ℚ :=
  if reserves < reserveCriticalLow then (ReserveLevel.critical_low, 1)
  else if reserves < reserveLow then (ReserveLevel.low, 7/10)
  else if reserveCriticalHigh < reserves then (ReserveLevel.critical_high, 0)
  else if reserveHigh < reserves then (ReserveLevel.high, 2/10)
  else (ReserveLevel.normal, 4/10)

/-- Reserve sub-score as consumed by `calculate_signal_strength`
(src/bitcoin_model/models/fed_pivot.py line 188): the classification score
when reserve data is available, defaulting to 0 otherwise. -/
def reserveScoreOf (reserves : Option ℚ) : ℚ :=
  match reserves with
  | none => 0
  | some r => (classifyReserves r).2

/-- M2 growth level labels of `M2MinerModel.get_m2_data`
(src/bitcoin_model/models/m2_miner.py lines 81-95). -/
inductive GrowthLevel where
  | extreme_expansion
  | strong_expansion
  | normal_expansion
  | slow_growth
  | contraction
deriving DecidableEq

/-- M2 growth classification of `M2MinerModel.get_m2_data`
(src/bitcoin_model/models/m2_miner.py lines 81-95).  Each bucket is
entered with a greater-or-equal comparison against its threshold. -/
def classifyM2Growth (g : ℚ) : GrowthLevel × ℚ :=
  if m2Extreme ≤ g then (GrowthLevel.extreme_expansion, 1)
  else if m2Strong ≤ g then (GrowthLevel.strong_expansion, 8/10)
  else if m2Normal ≤ g then (GrowthLevel.normal_expansion, 5/10)
  else if m2Contraction ≤ g then (GrowthLevel.slow_growth, 2/10)
  else (GrowthLevel.contraction, 0)

/-- M2 snapshot assembled by `M2MinerModel.get_m2_data`
(src/bitcoin_model/models/m2_miner.py lines 43-110).  In the error branch
the growth level and growth score keys are absent; the score defaults to
0 at its use site. -/
structure M2Data where
  m2_growth_rate : Option ℚ
  m2_acceleration : Option ℚ
  growth_level : Option GrowthLevel
  growth_score : ℚ
deriving DecidableEq

/-- Translation of `M2MinerModel.get_m2_data`
(src/bitcoin_model/models/m2_miner.py lines 43-110) from the provider
outputs: the growth rate (possibly unavailable) and the computed
acceleration (possibly unavailable). -/
def get_m2_data (growth : Option ℚ) (accel : Option ℚ) : M2Data :=
  match growth with
  | none =>
    { m2_growth_rate := none, m2_acceleration := none, growth_level := none, growth_score := 0 }
  | some g =>
    { m2_growth_rate := some g
      m2_acceleration := accel
      growth_level := some (classifyM2Growth g).1
      growth_score := (classifyM2Growth g).2 }

/-- Translation of `M2MinerModel.calculate_m2_score`
(src/bitcoin_model/models/m2_miner.py lines 162-194): 0 when the growth
rate is unavailable, otherwise the growth score plus the acceleration
bonus clamped to [-1/5, 1/5], with the sum clamped to [0, 1]. -/
def calculate_m2_score (md : M2Data) : ℚ :=
  match md.m2_growth_rate with
  | none => 0
  | some _ =>
    let accelBonus : ℚ :=
      match md.m2_acceleration with
      | none => 0
      | some a => min (2/10) (max (-(2/10)) (a * 5))
    min 1 (max 0 (md.growth_score + accelBonus))

/-- Hash ribbon signal labels consumed by
`M2MinerModel.get_hash_ribbon_data`
(src/bitcoin_model/models/m2_miner.py lines 126-138). -/
inductive RibbonSignal where
  | buy
  | sell
  | neutral
deriving DecidableEq

/-- Ribbon score computed by `M2MinerModel.get_hash_ribbon_data`
(src/bitcoin_model/models/m2_miner.py lines 129-143): base score from the
signal, a 3/10 bonus on miner capitulation, clamped to at most 1. -/
def hashRibbonScore (signal : RibbonSignal) (capitulated : Bool) : ℚ :=
  let ribbon : ℚ :=
    match signal with
    | RibbonSignal.buy => 1
    | RibbonSignal.sell => 0
    | RibbonSignal.neutral => 4/10
  let bonus : ℚ := if capitulated then 3/10 else 0
  min 1 (ribbon + bonus)

/-- Miner sub-score as consumed by `calculate_signal_strength`
(src/bitcoin_model/models/m2_miner.py line 210): the ribbon score when
hash data is available, defaulting to 0 otherwise. -/
def minerScoreOf (miner : Option (RibbonSignal × Bool)) : ℚ :=
  match miner with
  | none => 0
  | some p => hashRibbonScore p.1 p.2

/-- Signal strength tiers (both scenarios plus the scenario 2 override,
src/bitcoin_model/models/fed_pivot.py lines 198-205 and
src/bitcoin_model/models/m2_miner.py lines 220-233). -/
inductive Strength where
  | weak
  | moderate
  | strong
  | very_strong
  | strong_m2_override
deriving DecidableEq

/-- Strength tier classification shared by both scenarios
(src/bitcoin_model/models/fed_pivot.py lines 198-205). -/
def strengthTier (c : ℚ) : Strength :=
  if 8/10 ≤ c then Strength.very_strong
  else if 6/10 ≤ c then Strength.strong
  else if 4/10 ≤ c then Strength.moderate
  else Strength.weak

/-- Signal analysis record returned by `calculate_signal_strength` of
either scenario model. -/
structure SignalResult where
  score1 : ℚ
  score2 : ℚ
  combined_score : ℚ
  buy_signal : Bool
  signal_strength : Strength
  threshold : ℚ
deriving DecidableEq

/-- Combined score of scenario 1, `FedPivotModel.calculate_signal_strength`
(src/bitcoin_model/models/fed_pivot.py line 191): fed score weighted 6/10
plus reserve score weighted 4/10. -/
def fedCombinedScore (fd : FedData) (reserves : Option ℚ) : ℚ :=
  calculate_fed_score fd * (6/10) + reserveScoreOf reserves * (4/10)

/-- Translation of `FedPivotModel.calculate_signal_strength`
(src/bitcoin_model/models/fed_pivot.py lines 174-214). -/
def fedPivotSignalStrength (fd : FedData) (reserves : Option ℚ) : SignalResult :=
  { score1 := calculate_fed_score fd
    score2 := reserveScoreOf reserves
    combined_score := fedCombinedScore fd reserves
    buy_signal := decide (signalThreshold1 ≤ fedCombinedScore fd reserves)
    signal_strength := strengthTier (fedCombinedScore fd reserves)
    threshold := signalThreshold1 }

/-- Combined score of scenario 2, `M2MinerModel.calculate_signal_strength`
(src/bitcoin_model/models/m2_miner.py line 213): equal 1/2 weights. -/
def m2CombinedScore (md : M2Data) (miner : Option (RibbonSignal × Bool)) : ℚ :=
  calculate_m2_score md * (1/2) + minerScoreOf miner * (1/2)

/-- Translation of `M2MinerModel.calculate_signal_strength`
(src/bitcoin_model/models/m2_miner.py lines 196-242), including the
extreme M2 override of lines 230-233, which replaces both the buy flag
and the strength tier whenever the growth level is extreme_expansion and
the combined score is at least 6/10. -/
def m2MinerSignalStrength (md : M2Data) (miner : Option (RibbonSignal × Bool)) : SignalResult :=
  if md.growth_level = some GrowthLevel.extreme_expansion ∧ 6/10 ≤ m2CombinedScore md miner then
    { score1 := calculate_m2_score md
      score2 := minerScoreOf miner
      combined_score := m2CombinedScore md miner
      buy_signal := true
      signal_strength := Strength.strong_m2_override
      threshold := signalThreshold2 }
  else
    { score1 := calculate_m2_score md
      score2 := minerScoreOf miner
      combined_score := m2CombinedScore md miner
      buy_signal := decide (signalThreshold2 ≤ m2CombinedScore md miner)
      signal_strength := strengthTier (m2CombinedScore md miner)
      threshold := signalThreshold2 }

/-- Tranche timings of the two entry schedules
(src/bitcoin_model/models/fed_pivot.py lines 257-262 and
src/bitcoin_model/models/m2_miner.py lines 285-290). -/
inductive Timing where
  | immediate
  | after24h
  | after48h
  | after72h
  | week1
  | week2
  | week3
  | week4
deriving DecidableEq

/-- One tranche of an entry schedule. -/
structure Tranche where
  timing : Timing
  fraction : ℚ
  value : ℚ
deriving DecidableEq

/-- Trade plan actions (`no_action`, `buy`, `accumulate`). -/
inductive PlanAction where
  | no_action
  | buyAction
  | accumulate
deriving DecidableEq

/-- Trade plan record returned by `generate_trade_plan` of either
scenario model. -/
structure TradePlan where
  action : PlanAction
  position_size : ℚ
  position_value : ℚ
  entry_plan : List Tranche
deriving DecidableEq

/-- Position limits of the active risk profile
(src/bitcoin_model/config/settings.py lines 16-29, 86-89). -/
structure PositionLimits where
  base : ℚ
  max : ℚ
deriving DecidableEq

/-- Default moderate risk profile limits
(src/bitcoin_model/config/settings.py lines 21-24). -/
def moderateLimits : PositionLimits := { base := 5/100, max := 15/100 }

/-- Translation of `FedPivotModel.generate_trade_plan`
(src/bitcoin_model/models/fed_pivot.py lines 216-278). -/
def fedPivotTradePlan (limits : PositionLimits) (sr : SignalResult) (portfolioValue : ℚ) : TradePlan :=
  if sr.buy_signal = false then
    { action := PlanAction.no_action, position_size := 0, position_value := 0, entry_plan := [] }
  else
    let excess := max 0 (sr.combined_score - sr.threshold)
    let maxExcess := 1 - sr.threshold
    let sizeMultiplier := if 0 < maxExcess then 1 + excess / maxExcess * 2 else 1
    let positionSize := min limits.max (limits.base * sizeMultiplier)
    let pv := portfolioValue * positionSize
    { action := PlanAction.buyAction
      position_size := positionSize
      position_value := pv
      entry_plan :=
        [ { timing := Timing.immediate, fraction := 40/100, value := pv * (40/100) }
        , { timing := Timing.after24h, fraction := 30/100, value := pv * (30/100) }
        , { timing := Timing.after48h, fraction := 20/100, value := pv * (20/100) }
        , { timing := Timing.after72h, fraction := 10/100, value := pv * (10/100) } ] }

/-- Translation of `M2MinerModel.generate_trade_plan`
(src/bitcoin_model/models/m2_miner.py lines 244-307). -/
def m2MinerTradePlan (limits : PositionLimits) (sr : SignalResult) (portfolioValue : ℚ) : TradePlan :=
  if sr.buy_signal = false then
    { action := PlanAction.no_action, position_size := 0, position_value := 0, entry_plan := [] }
  else
    let excess := max 0 (sr.combined_score - sr.threshold)
    let maxExcess := 1 - sr.threshold
    let sizeMultiplier := if 0 < maxExcess then 12/10 + excess / maxExcess * (5/2) else 12/10
    let positionSize := min limits.max (limits.base * sizeMultiplier)
    let pv := portfolioValue * positionSize
    { action := PlanAction.accumulate
      position_size := positionSize
      position_value := pv
      entry_plan :=
        [ { timing := Timing.week1, fraction := 30/100, value := pv * (30/100) }
        , { timing := Timing.week2, fraction := 25/100, value := pv * (25/100) }
        , { timing := Timing.week3, fraction := 25/100, value := pv * (25/100) }
        , { timing := Timing.week4, fraction := 20/100, value := pv * (20/100) } ] }

/-- Directional multiplier as the specification words it (spec.md section
4.2): written from the spec sentence for comparison with the source
translation `directionMultiplier`; easing is the source label cutting and
tightening is the source label hiking. -/
def spec_directional_multiplier (detected : Bool) (dir : PivotDirection) (mag : ℚ) : ℚ :=
  if detected = true ∧ dir = PivotDirection.cutting then 3/2 + min (1/2) (mag / 2)
  else if detected = true ∧ dir = PivotDirection.hiking then 3/10
  else if detected = false ∧ dir = PivotDirection.cutting then 6/5
  else 1

/-- The orchestrator health fold yields healthy exactly when the
accumulator is healthy and every outcome returned healthy. -/
lemma orch_foldl_healthy (outs : List (Option Health)) (acc : Health) :
    outs.foldl healthStep acc = Health.healthy ↔
      (acc = Health.healthy ∧ ∀ o ∈ outs, o = some Health.healthy) := by
  induction outs generalizing acc with
  | nil => simp
  | cons o t ih =>
    rw [List.foldl_cons, ih]
    cases o with
    | none => simp [healthStep]
    | some s =>
      by_cases hs : s = Health.healthy
      · subst hs
        simp [healthStep]
      · simp [healthStep, hs]

/-- Bounds of the rate-level base score. -/
lemma baseFedScore_bounds (rate : ℚ) : 0 ≤ baseFedScore rate ∧ baseFedScore rate ≤ 8/10 := by
  unfold baseFedScore
  split_ifs <;> norm_num

/-- Nonnegativity of the directional multiplier for nonnegative
magnitudes. -/
lemma directionMultiplier_nonneg (detected : Bool) (dir : PivotDirection) (mag : ℚ)
    (h : 0 ≤ mag) : 0 ≤ directionMultiplier detected dir mag := by
  have h2 : (0:ℚ) ≤ mag / 2 := div_nonneg h (by norm_num)
  have h3 : (0:ℚ) ≤ min (1/2) (mag / 2) := le_min (by norm_num) h2
  unfold directionMultiplier
  split_ifs <;> linarith

/-- Nonnegativity of the fed score for nonnegative magnitudes. -/
lemma calculate_fed_score_nonneg (fd : FedData) (h : 0 ≤ fd.pivot_magnitude) :
    0 ≤ calculate_fed_score fd := by
  rcases hr : fd.fed_funds_rate with _ | rate
  · simp [calculate_fed_score, hr]
  · simp only [calculate_fed_score, hr]
    exact le_min (by norm_num)
      (mul_nonneg (baseFedScore_bounds rate).1
        (directionMultiplier_nonneg fd.pivot_detected fd.pivot_direction fd.pivot_magnitude h))

/-- The fed score never exceeds 1. -/
lemma calculate_fed_score_le_one (fd : FedData) : calculate_fed_score fd ≤ 1 := by
  rcases hr : fd.fed_funds_rate with _ | rate
  · simp [calculate_fed_score, hr]
  · simp only [calculate_fed_score, hr]
    exact min_le_left _ _

/-- Bounds of the reserve sub-score. -/
lemma reserveScoreOf_bounds (reserves : Option ℚ) :
    0 ≤ reserveScoreOf reserves ∧ reserveScoreOf reserves ≤ 1 := by
  rcases reserves with _ | r
  · simp [reserveScoreOf]
  · simp only [reserveScoreOf]
    unfold classifyReserves
    split_ifs <;> norm_num

/-- Bounds of the M2 sub-score. -/
lemma calculate_m2_score_bounds (md : M2Data) :
    0 ≤ calculate_m2_score md ∧ calculate_m2_score md ≤ 1 := by
  rcases hg : md.m2_growth_rate with _ | g
  · simp [calculate_m2_score, hg]
  · simp only [calculate_m2_score, hg]
    exact ⟨le_min (by norm_num) (le_max_left _ _), min_le_left _ _⟩

/-- Bounds of the miner sub-score. -/
lemma minerScoreOf_bounds (miner : Option (RibbonSignal × Bool)) :
    0 ≤ minerScoreOf miner ∧ minerScoreOf miner ≤ 1 := by
  rcases miner with _ | ⟨s, c⟩
  · simp [minerScoreOf]
  · simp only [minerScoreOf, hashRibbonScore]
    refine ⟨le_min (by norm_num) (add_nonneg ?_ ?_), min_le_left _ _⟩
    · cases s <;> norm_num
    · cases c <;> norm_num

/-- The combined score field of the scenario 2 signal result is the
weighted combination in both the override and the plain branch. -/
lemma m2SignalStrength_combined (md : M2Data) (miner : Option (RibbonSignal × Bool)) :
    (m2MinerSignalStrength md miner).combined_score = m2CombinedScore md miner := by
  unfold m2MinerSignalStrength
  split_ifs <;> rfl

/-- Invariant of the strongest-signal fold: the running maximum never
decreases, the fold either leaves the accumulator unchanged or returns a
non-error entry of the list whose score strictly exceeds the starting
maximum, and every non-error score of the list is bounded by the final
maximum. -/
lemma strongest_go (l : List ResultEntry) (acc : Option ResultEntry × ℚ) :
    acc.2 ≤ (l.foldl strongestStep acc).2
    ∧ (l.foldl strongestStep acc = acc
        ∨ ∃ e, e ∈ l ∧ l.foldl strongestStep acc = (some e, e.signals.combined_score)
            ∧ e.isError = false ∧ acc.2 < e.signals.combined_score)
    ∧ ∀ e, e ∈ l → e.isError = false →
        e.signals.combined_score ≤ (l.foldl strongestStep acc).2 := by
  induction l generalizing acc with
  | nil => simp
  | cons x t ih =>
    obtain ⟨ih1, ih2, ih3⟩ := ih (strongestStep acc x)
    rw [List.foldl_cons]
    by_cases hc : x.isError = false ∧ acc.2 < x.signals.combined_score
    · have hs : strongestStep acc x = (some x, x.signals.combined_score) := by
        unfold strongestStep
        rw [if_pos hc]
      refine ⟨?_, ?_, ?_⟩
      · have hstep : acc.2 ≤ (strongestStep acc x).2 := by
          rw [hs]
          exact le_of_lt hc.2
        exact le_trans hstep ih1
      · rcases ih2 with h | ⟨e, he, hr, herr, hlt⟩
        · right
          exact ⟨x, List.mem_cons_self x t, by rw [h, hs], hc.1, hc.2⟩
        · right
          refine ⟨e, List.mem_cons_of_mem x he, hr, herr, ?_⟩
          have hstep : acc.2 ≤ (strongestStep acc x).2 := by
            rw [hs]
            exact le_of_lt hc.2
          exact lt_of_le_of_lt hstep hlt
      · intro e he herr
        rcases List.mem_cons.mp he with heq | he2
        · rw [heq]
          have hx : x.signals.combined_score = (strongestStep acc x).2 := by rw [hs]
          rw [hx]
          exact ih1
        · exact ih3 e he2 herr
    · have hs : strongestStep acc x = acc := by
        unfold strongestStep
        rw [if_neg hc]
      rw [hs] at ih1 ih2 ih3
      rw [hs]
      refine ⟨ih1, ?_, ?_⟩
      · rcases ih2 with h | ⟨e, he, hr, herr, hlt⟩
        · left
          exact h
        · right
          exact ⟨e, List.mem_cons_of_mem x he, hr, herr, hlt⟩
      · intro e he herr
        rcases List.mem_cons.mp he with heq | he2
        · rw [heq] at herr ⊢
          have hnlt : ¬ acc.2 < x.signals.combined_score := fun hlt => hc ⟨herr, hlt⟩
          exact le_trans (not_lt.mp hnlt) ih1
        · exact ih3 e he2 herr


/-- Characterization of the strongest-signal scan from the empty
accumulator: a none result means every entry is an error or has a
nonpositive score, and a some result is a non-error member of the list
with positive, maximal score. -/
lemma strongestScan_spec (entries : List ResultEntry) :
    ((strongestScan entries).1 = none →
      (strongestScan entries).2 = 0
      ∧ ∀ e ∈ entries, e.isError = true ∨ e.signals.combined_score ≤ 0)
    ∧ ∀ b, (strongestScan entries).1 = some b →
        b ∈ entries ∧ b.isError = false
        ∧ (strongestScan entries).2 = b.signals.combined_score
        ∧ 0 < b.signals.combined_score
        ∧ ∀ e ∈ entries, e.isError = false →
            e.signals.combined_score ≤ b.signals.combined_score := by
  obtain ⟨h1, h2, h3⟩ := strongest_go entries (none, 0)
  constructor
  · intro hn
    rcases h2 with h | ⟨e, he, hr, herr, hlt⟩
    · have hscan : strongestScan entries = ((none : Option ResultEntry), (0:ℚ)) := h
      constructor
      · rw [hscan]
      · intro e he
        by_cases herr : e.isError = true
        · left
          exact herr
        · right
          have herr2 : e.isError = false := by
            simpa using herr
          have hb := h3 e he herr2
          rw [show (entries.foldl strongestStep (none, 0)).2 = (strongestScan entries).2 from rfl,
            hscan] at hb
          exact hb
    · exfalso
      have hscan : (strongestScan entries).1 = some e := by
        rw [show strongestScan entries = (some e, e.signals.combined_score) from hr]
      rw [hn] at hscan
      exact Option.noConfusion hscan
  · intro b hb
    rcases h2 with h | ⟨e, he, hr, herr, hlt⟩
    · exfalso
      have hscan : (strongestScan entries).1 = none := by
        rw [show strongestScan entries = ((none : Option ResultEntry), (0:ℚ)) from h]
      rw [hb] at hscan
      exact Option.noConfusion hscan
    · have hscan : strongestScan entries = (some e, e.signals.combined_score) := hr
      have hbe : b = e := by
        have hb2 := hb
        rw [hscan] at hb2
        exact (Option.some.inj hb2).symm
      subst hbe
      refine ⟨he, herr, by rw [hscan], ?_, ?_⟩
      · simpa using hlt
      · intro e2 he2 herr2
        have hb3 := h3 e2 he2 herr2
        rw [show (entries.foldl strongestStep (none, 0)).2 = (strongestScan entries).2 from rfl,
          hscan] at hb3
        exact hb3

/-- Claim C1 counterexample: the claim says the orchestrator returns
overall error whenever at least one component reports error, independent
of order.  In the code a scenario that returns status error (without
raising) yields overall degraded, and a raised error is overwritten by a
later degraded component. -/
theorem c1_health_error_dominance_counterexample :
    orchestratorStatus [some Health.error] = Health.degraded
    ∧ orchestratorStatus [none, some Health.degraded] = Health.degraded := by
  decide

/-- Claim C1, amended: the orchestrator overall status is healthy iff
every scenario health call returns healthy without raising; otherwise the
last non-healthy scenario in registration order decides the outcome —
error if that call raised, degraded if it returned any non-healthy status
(including error).  The per-model `health_check` reduction over provider
statuses does implement the claimed dominance rule exactly: healthy iff
unanimous, error iff any provider errors (and not all healthy), degraded
otherwise. -/
theorem c1_health_aggregation (outs : List (Option Health)) (s : Health)
    (statuses : List Health) :
    (orchestratorStatus outs = Health.healthy ↔ ∀ o ∈ outs, o = some Health.healthy)
    ∧ orchestratorStatus (outs ++ [none]) = Health.error
    ∧ orchestratorStatus (outs ++ [some s]) =
        (if s = Health.healthy then orchestratorStatus outs else Health.degraded)
    ∧ (model_health_status statuses = Health.healthy ↔ ∀ t ∈ statuses, t = Health.healthy)
    ∧ (model_health_status statuses = Health.error ↔
        ¬(∀ t ∈ statuses, t = Health.healthy) ∧ ∃ t ∈ statuses, t = Health.error)
    ∧ (model_health_status statuses = Health.degraded ↔
        ¬(∀ t ∈ statuses, t = Health.healthy) ∧ ¬∃ t ∈ statuses, t = Health.error) := by
  refine ⟨?_, ?_, ?_, ?_, ?_, ?_⟩
  · have h := orch_foldl_healthy outs Health.healthy
    simpa [orchestratorStatus] using h
  · unfold orchestratorStatus
    rw [List.foldl_append]
    rfl
  · unfold orchestratorStatus
    rw [List.foldl_append]
    by_cases hs : s = Health.healthy
    · simp [healthStep, hs]
    · simp [healthStep, hs]
  · unfold model_health_status
    by_cases h1 : statuses.all (fun t => decide (t = Health.healthy)) = true
    · rw [if_pos h1]
      simp only [List.all_eq_true, decide_eq_true_eq] at h1
      exact iff_of_true rfl h1
    · rw [if_neg h1]
      simp only [List.all_eq_true, decide_eq_true_eq] at h1
      by_cases h2 : statuses.any (fun t => decide (t = Health.error)) = true
      · rw [if_pos h2]
        exact iff_of_false (by simp) h1
      · rw [if_neg h2]
        exact iff_of_false (by simp) h1
  · unfold model_health_status
    by_cases h1 : statuses.all (fun t => decide (t = Health.healthy)) = true
    · rw [if_pos h1]
      simp only [List.all_eq_true, decide_eq_true_eq] at h1
      exact iff_of_false (by simp) (fun hc => hc.1 h1)
    · rw [if_neg h1]
      simp only [List.all_eq_true, decide_eq_true_eq] at h1
      by_cases h2 : statuses.any (fun t => decide (t = Health.error)) = true
      · rw [if_pos h2]
        simp only [List.any_eq_true, decide_eq_true_eq] at h2
        exact iff_of_true rfl ⟨h1, h2⟩
      · rw [if_neg h2]
        simp only [List.any_eq_true, decide_eq_true_eq] at h2
        exact iff_of_false (by simp) (fun hc => h2 hc.2)
  · unfold model_health_status
    by_cases h1 : statuses.all (fun t => decide (t = Health.healthy)) = true
    · rw [if_pos h1]
      simp only [List.all_eq_true, decide_eq_true_eq] at h1
      exact iff_of_false (by simp) (fun hc => hc.1 h1)
    · rw [if_neg h1]
      simp only [List.all_eq_true, decide_eq_true_eq] at h1
      by_cases h2 : statuses.any (fun t => decide (t = Health.error)) = true
      · rw [if_pos h2]
        simp only [List.any_eq_true, decide_eq_true_eq] at h2
        exact iff_of_false (by simp) (fun hc => hc.2 h2)
      · rw [if_neg h2]
        simp only [List.any_eq_true, decide_eq_true_eq] at h2
        exact iff_of_true rfl ⟨h1, h2⟩

/-- Claim C1 witness: the amended characterization applied at concrete
inputs. -/
theorem c1_health_aggregation_witness :
    orchestratorStatus [some Health.healthy, some Health.healthy] = Health.healthy
    ∧ model_health_status [Health.healthy, Health.error] = Health.error := by
  constructor
  · exact (c1_health_aggregation [some Health.healthy, some Health.healthy]
      Health.healthy []).1.mpr (by decide)
  · exact ((c1_health_aggregation [] Health.healthy
      [Health.healthy, Health.error]).2.2.2.2.1).mpr (by decide)

/-- Claim C2 counterexample: the claim says the sentinel is returned iff
every scenario produced an error result.  With a single non-error result
of combined score 0 the strict comparison against the initial maximum 0
never fires and the sentinel is returned anyway. -/
theorem c2_strongest_counterexample :
    (get_strongest_signal [some { buy_signal := false, combined_score := 0 }]).isError = true
    ∧ (entryOf (some { buy_signal := false, combined_score := 0 })).isError = false := by
  decide

/-- Claim C2, amended: get_strongest_signal returns the first-registered
non-error result attaining the maximal combined score provided that
maximum is positive, with ties kept by the earlier scenario (an appended
entry only replaces the running best when its score strictly exceeds the
running maximum); it returns the sentinel iff every result is an error
result or has combined score at most 0, not only when every scenario
errored; it is a total function. -/
theorem c2_strongest_signal (outs : List (Option Signals)) (o : Option Signals) :
    ((get_strongest_signal outs).isError = true ↔
      ∀ e ∈ get_all_signals outs, e.isError = true ∨ e.signals.combined_score ≤ 0)
    ∧ (∀ b, (strongestScan (get_all_signals outs)).1 = some b →
        get_strongest_signal outs = b
        ∧ b ∈ get_all_signals outs ∧ b.isError = false ∧ 0 < b.signals.combined_score
        ∧ ∀ e ∈ get_all_signals outs, e.isError = false →
            e.signals.combined_score ≤ b.signals.combined_score)
    ∧ strongestScan (get_all_signals outs ++ [entryOf o]) =
        (if (entryOf o).isError = false
            ∧ (strongestScan (get_all_signals outs)).2 < (entryOf o).signals.combined_score
         then (some (entryOf o), (entryOf o).signals.combined_score)
         else strongestScan (get_all_signals outs)) := by
  obtain ⟨hnone, hsome⟩ := strongestScan_spec (get_all_signals outs)
  refine ⟨⟨?_, ?_⟩, ?_, ?_⟩
  · intro herr
    rcases hscan : (strongestScan (get_all_signals outs)).1 with _ | b
    · exact (hnone hscan).2
    · exfalso
      have hb := hsome b hscan
      have hres : get_strongest_signal outs = b := by
        unfold get_strongest_signal
        rw [hscan]
      rw [hres, hb.2.1] at herr
      exact Bool.noConfusion herr
  · intro hall
    rcases hscan : (strongestScan (get_all_signals outs)).1 with _ | b
    · unfold get_strongest_signal
      rw [hscan]
    · exfalso
      have hb := hsome b hscan
      rcases hall b hb.1 with hcase | hcase
      · rw [hb.2.1] at hcase
        exact Bool.noConfusion hcase
      · exact absurd hb.2.2.2.1 (not_lt.mpr hcase)
  · intro b hscan
    have hb := hsome b hscan
    refine ⟨?_, hb.1, hb.2.1, hb.2.2.2.1, hb.2.2.2.2⟩
    unfold get_strongest_signal
    rw [hscan]
  · unfold strongestScan
    rw [List.foldl_append]
    rfl

/-- Claim C2 witness: the amended characterization applied at a concrete
input with one positive-score result. -/
theorem c2_strongest_signal_witness :
    get_strongest_signal [some { buy_signal := true, combined_score := 1/2 }]
      = { signals := { buy_signal := true, combined_score := 1/2 }, isError := false } := by
  exact ((c2_strongest_signal [some { buy_signal := true, combined_score := 1/2 }] none).2.1
    { signals := { buy_signal := true, combined_score := 1/2 }, isError := false }
    (by norm_num [strongestScan, get_all_signals, entryOf, strongestStep])).1

/-- Claim C3 counterexample: the claim says every bucket scan is strict so
boundary values fall into the less extreme bucket.  The M2-growth scan
compares with greater-or-equal, so a growth rate exactly at the 15/100
boundary is classified extreme_expansion, the more extreme bucket, not
strong_expansion. -/
theorem c3_boundary_counterexample :
    (classifyM2Growth (15/100)).1 = GrowthLevel.extreme_expansion
    ∧ ¬ (classifyM2Growth (15/100)).1 = GrowthLevel.strong_expansion := by
  constructor
  · norm_num [classifyM2Growth, m2Extreme]
  · norm_num [classifyM2Growth, m2Extreme]
    decide

/-- Claim C3, amended: the exchange-reserve and Fed-rate scans use strict
comparisons, so a value exactly at a boundary falls into the less extreme
bucket, and the exchange-reserve buckets score 1 below 2.35M, 7/10 below
2.5M, 0 above 3.0M, 2/10 above 2.8M and 4/10 otherwise; the M2-growth
scan instead admits a bucket with greater-or-equal, so a growth rate
exactly at a boundary falls into the more extreme bucket. -/
theorem c3_bucket_boundaries (r g : ℚ) :
    (r < 2350000 → reserveScoreOf (some r) = 1)
    ∧ (2350000 ≤ r → r < 2500000 → reserveScoreOf (some r) = 7/10)
    ∧ (3000000 < r → reserveScoreOf (some r) = 0)
    ∧ (2800000 < r → r ≤ 3000000 → reserveScoreOf (some r) = 2/10)
    ∧ (2500000 ≤ r → r ≤ 2800000 → reserveScoreOf (some r) = 4/10)
    ∧ ((classifyM2Growth g).1 = GrowthLevel.extreme_expansion ↔ 15/100 ≤ g)
    ∧ baseFedScore 1 = 5/10 ∧ baseFedScore 3 = 3/10 ∧ baseFedScore 5 = 1/10 := by
  refine ⟨?_, ?_, ?_, ?_, ?_, ?_, ?_, ?_, ?_⟩
  · intro h
    simp only [reserveScoreOf]
    unfold classifyReserves reserveCriticalLow reserveLow reserveHigh reserveCriticalHigh
    split_ifs <;> first | rfl | (exfalso; linarith)
  · intro h1 h2
    simp only [reserveScoreOf]
    unfold classifyReserves reserveCriticalLow reserveLow reserveHigh reserveCriticalHigh
    split_ifs <;> first | rfl | (exfalso; linarith)
  · intro h
    simp only [reserveScoreOf]
    unfold classifyReserves reserveCriticalLow reserveLow reserveHigh reserveCriticalHigh
    split_ifs <;> first | rfl | (exfalso; linarith)
  · intro h1 h2
    simp only [reserveScoreOf]
    unfold classifyReserves reserveCriticalLow reserveLow reserveHigh reserveCriticalHigh
    split_ifs <;> first | rfl | (exfalso; linarith)
  · intro h1 h2
    simp only [reserveScoreOf]
    unfold classifyReserves reserveCriticalLow reserveLow reserveHigh reserveCriticalHigh
    split_ifs <;> first | rfl | (exfalso; linarith)
  · unfold classifyM2Growth m2Extreme m2Strong m2Normal m2Contraction
    split_ifs with h1 h2 h3 h4 <;> simp_all
  · norm_num [baseFedScore, fedRateUltraLow, fedRateLow, fedRateNeutral]
  · norm_num [baseFedScore, fedRateUltraLow, fedRateLow, fedRateNeutral]
  · norm_num [baseFedScore, fedRateUltraLow, fedRateLow, fedRateNeutral]

/-- Claim C3 witness: boundary values on both sides, applied through the
amended characterization. -/
theorem c3_bucket_boundaries_witness :
    reserveScoreOf (some 2350000) = 7/10
    ∧ reserveScoreOf (some 3000000) = 2/10
    ∧ (classifyM2Growth (15/100)).1 = GrowthLevel.extreme_expansion := by
  refine ⟨?_, ?_, ?_⟩
  · exact (c3_bucket_boundaries 2350000 0).2.1 (by norm_num) (by norm_num)
  · exact (c3_bucket_boundaries 3000000 0).2.2.2.1 (by norm_num) (by norm_num)
  · exact (c3_bucket_boundaries 0 (15/100)).2.2.2.2.2.1.mpr (by norm_num)

/-- Claim C4: for every indicator snapshot produced by the providers,
including snapshots with missing readings, every per-indicator sub-score
(fed score, reserve score, M2 score, miner ribbon score) lies in [0,1]
and both combined scores lie in [0,1].  The pivot magnitude is the
absolute value computed by detect_fed_pivot. -/
theorem c4_scores_bounded (rate : Option ℚ) (rateChange : ℚ) (reserves : Option ℚ)
    (growth accel : Option ℚ) (miner : Option (RibbonSignal × Bool)) :
    0 ≤ (fedPivotSignalStrength (get_fed_data rate rateChange) reserves).score1
    ∧ (fedPivotSignalStrength (get_fed_data rate rateChange) reserves).score1 ≤ 1
    ∧ 0 ≤ (fedPivotSignalStrength (get_fed_data rate rateChange) reserves).score2
    ∧ (fedPivotSignalStrength (get_fed_data rate rateChange) reserves).score2 ≤ 1
    ∧ 0 ≤ (fedPivotSignalStrength (get_fed_data rate rateChange) reserves).combined_score
    ∧ (fedPivotSignalStrength (get_fed_data rate rateChange) reserves).combined_score ≤ 1
    ∧ 0 ≤ (m2MinerSignalStrength (get_m2_data growth accel) miner).score1
    ∧ (m2MinerSignalStrength (get_m2_data growth accel) miner).score1 ≤ 1
    ∧ 0 ≤ (m2MinerSignalStrength (get_m2_data growth accel) miner).score2
    ∧ (m2MinerSignalStrength (get_m2_data growth accel) miner).score2 ≤ 1
    ∧ 0 ≤ (m2MinerSignalStrength (get_m2_data growth accel) miner).combined_score
    ∧ (m2MinerSignalStrength (get_m2_data growth accel) miner).combined_score ≤ 1 := by
  have hmag : 0 ≤ (get_fed_data rate rateChange).pivot_magnitude := by
    simp [get_fed_data, detect_fed_pivot]
  have hfed1 := calculate_fed_score_nonneg (get_fed_data rate rateChange) hmag
  have hfed2 := calculate_fed_score_le_one (get_fed_data rate rateChange)
  have hres := reserveScoreOf_bounds reserves
  have hm2 := calculate_m2_score_bounds (get_m2_data growth accel)
  have hmin := minerScoreOf_bounds miner
  have hq1 : (m2MinerSignalStrength (get_m2_data growth accel) miner).score1
      = calculate_m2_score (get_m2_data growth accel) := by
    unfold m2MinerSignalStrength
    split_ifs <;> rfl
  have hq2 : (m2MinerSignalStrength (get_m2_data growth accel) miner).score2
      = minerScoreOf miner := by
    unfold m2MinerSignalStrength
    split_ifs <;> rfl
  have hq3 : (m2MinerSignalStrength (get_m2_data growth accel) miner).combined_score
      = calculate_m2_score (get_m2_data growth accel) * (1/2) + minerScoreOf miner * (1/2) := by
    rw [m2SignalStrength_combined]
    rfl
  have hp3 : (fedPivotSignalStrength (get_fed_data rate rateChange) reserves).combined_score
      = calculate_fed_score (get_fed_data rate rateChange) * (6/10)
        + reserveScoreOf reserves * (4/10) := rfl
  refine ⟨hfed1, hfed2, hres.1, hres.2, ?_, ?_, ?_, ?_, ?_, ?_, ?_, ?_⟩
  · rw [hp3]
    nlinarith [hfed1, hres.1]
  · rw [hp3]
    nlinarith [hfed2, hres.2]
  · rw [hq1]
    exact hm2.1
  · rw [hq1]
    exact hm2.2
  · rw [hq2]
    exact hmin.1
  · rw [hq2]
    exact hmin.2
  · rw [hq3]
    nlinarith [hm2.1, hmin.1]
  · rw [hq3]
    nlinarith [hm2.2, hmin.2]

/-- Claim C5: in scenario 2 only, an extreme_expansion growth
classification together with combined score at least 6/10 forces the buy
signal and the distinct strong_m2_override tier even below the 75/100
threshold, while the same classification with combined score 55/100
yields no buy signal; scenario 1 never produces the override tier. -/
theorem c5_extreme_m2_override (md : M2Data) (miner : Option (RibbonSignal × Bool))
    (fd : FedData) (reserves : Option ℚ) :
    (md.growth_level = some GrowthLevel.extreme_expansion →
      6/10 ≤ (m2MinerSignalStrength md miner).combined_score →
        (m2MinerSignalStrength md miner).buy_signal = true
        ∧ (m2MinerSignalStrength md miner).signal_strength = Strength.strong_m2_override)
    ∧ (md.growth_level = some GrowthLevel.extreme_expansion →
        (m2MinerSignalStrength md miner).combined_score = 55/100 →
          (m2MinerSignalStrength md miner).buy_signal = false)
    ∧ (fedPivotSignalStrength fd reserves).signal_strength ≠ Strength.strong_m2_override := by
  refine ⟨?_, ?_, ?_⟩
  · intro h1 h2
    rw [m2SignalStrength_combined] at h2
    unfold m2MinerSignalStrength
    rw [if_pos ⟨h1, h2⟩]
    exact ⟨rfl, rfl⟩
  · intro h1 h2
    rw [m2SignalStrength_combined] at h2
    have hlt : ¬ (6/10 ≤ m2CombinedScore md miner) := by
      rw [h2]
      norm_num
    unfold m2MinerSignalStrength
    rw [if_neg (fun hc => hlt hc.2)]
    show decide (signalThreshold2 ≤ m2CombinedScore md miner) = false
    simp only [decide_eq_false_iff_not, not_le]
    rw [h2]
    norm_num [signalThreshold2]
  · show strengthTier (fedCombinedScore fd reserves) ≠ Strength.strong_m2_override
    unfold strengthTier
    split_ifs <;> simp

/-- Claim C5 witness: an extreme M2 snapshot with combined score 65/100
forces the override buy signal, and the same classification with
combined score 55/100 yields no buy. -/
theorem c5_extreme_m2_override_witness :
    (m2MinerSignalStrength (get_m2_data (some (15/100)) none)
      (some (RibbonSignal.sell, true))).buy_signal = true
    ∧ (m2MinerSignalStrength (get_m2_data (some (15/100)) none)
        (some (RibbonSignal.sell, true))).signal_strength = Strength.strong_m2_override
    ∧ (m2MinerSignalStrength (get_m2_data (some (15/100)) (some (-(1/25))))
        (some (RibbonSignal.sell, true))).buy_signal = false := by
  have hgl : (get_m2_data (some (15/100)) none).growth_level
      = some GrowthLevel.extreme_expansion := by
    norm_num [get_m2_data, classifyM2Growth, m2Extreme]
  have hgl2 : (get_m2_data (some (15/100)) (some (-(1/25)))).growth_level
      = some GrowthLevel.extreme_expansion := by
    norm_num [get_m2_data, classifyM2Growth, m2Extreme]
  have hge : 6/10 ≤ (m2MinerSignalStrength (get_m2_data (some (15/100)) none)
      (some (RibbonSignal.sell, true))).combined_score := by
    norm_num [m2MinerSignalStrength, m2CombinedScore, calculate_m2_score, get_m2_data,
      classifyM2Growth, m2Extreme, m2Strong, m2Normal, m2Contraction, minerScoreOf,
      hashRibbonScore, signalThreshold2, strengthTier, min_def, max_def]
  have heq : (m2MinerSignalStrength (get_m2_data (some (15/100)) (some (-(1/25))))
      (some (RibbonSignal.sell, true))).combined_score = 55/100 := by
    norm_num [m2MinerSignalStrength, m2CombinedScore, calculate_m2_score, get_m2_data,
      classifyM2Growth, m2Extreme, m2Strong, m2Normal, m2Contraction, minerScoreOf,
      hashRibbonScore, signalThreshold2, strengthTier, min_def, max_def]
  have h1 := (c5_extreme_m2_override (get_m2_data (some (15/100)) none)
    (some (RibbonSignal.sell, true))
    { fed_funds_rate := none, pivot_detected := false,
      pivot_direction := PivotDirection.neutral, pivot_magnitude := 0 } none).1 hgl hge
  have h2 := (c5_extreme_m2_override (get_m2_data (some (15/100)) (some (-(1/25))))
    (some (RibbonSignal.sell, true))
    { fed_funds_rate := none, pivot_detected := false,
      pivot_direction := PivotDirection.neutral, pivot_magnitude := 0 } none).2.1 hgl2 heq
  exact ⟨h1.1, h1.2, h2⟩

/-- Claim C6: in scenario 1 a missing policy-rate reading forces the fed
sub-score to 0, the combined score equals the reserve sub-score weighted
4/10 and is therefore at most 4/10, below the default 70/100 threshold,
so the buy signal is always false. -/
theorem c6_missing_rate_no_buy (fd : FedData) (reserves : Option ℚ)
    (h : fd.fed_funds_rate = none) :
    (fedPivotSignalStrength fd reserves).score1 = 0
    ∧ (fedPivotSignalStrength fd reserves).combined_score = reserveScoreOf reserves * (4/10)
    ∧ (fedPivotSignalStrength fd reserves).combined_score ≤ 4/10
    ∧ (fedPivotSignalStrength fd reserves).threshold = 70/100
    ∧ (fedPivotSignalStrength fd reserves).buy_signal = false := by
  have hfs : calculate_fed_score fd = 0 := by
    simp [calculate_fed_score, h]
  have hc2 : fedCombinedScore fd reserves = reserveScoreOf reserves * (4/10) := by
    unfold fedCombinedScore
    rw [hfs]
    ring
  have hres := (reserveScoreOf_bounds reserves).2
  refine ⟨hfs, hc2, ?_, rfl, ?_⟩
  · show fedCombinedScore fd reserves ≤ 4/10
    rw [hc2]
    linarith
  · show decide (signalThreshold1 ≤ fedCombinedScore fd reserves) = false
    simp only [decide_eq_false_iff_not, not_le]
    rw [hc2]
    unfold signalThreshold1
    linarith

/-- Claim C6 witness: missing rate with very low reserves still yields no
buy signal. -/
theorem c6_missing_rate_no_buy_witness :
    (fedPivotSignalStrength
      { fed_funds_rate := none, pivot_detected := true,
        pivot_direction := PivotDirection.cutting, pivot_magnitude := 2 }
      (some 2300000)).buy_signal = false := by
  exact (c6_missing_rate_no_buy
    { fed_funds_rate := none, pivot_detected := true,
      pivot_direction := PivotDirection.cutting, pivot_magnitude := 2 }
    (some 2300000) rfl).2.2.2.2

/-- Claim C7: for every trade plan generated with a true buy signal in
either scenario, the entry-schedule fractions sum to exactly 1, each
tranche value is the position value times its fraction, and the position
size never exceeds the active risk profile maximum. -/
theorem c7_trade_plan_invariants (limits : PositionLimits) (sr : SignalResult) (pv : ℚ)
    (h : sr.buy_signal = true) :
    ((fedPivotTradePlan limits sr pv).entry_plan.map Tranche.fraction).sum = 1
    ∧ (∀ t ∈ (fedPivotTradePlan limits sr pv).entry_plan,
        t.value = (fedPivotTradePlan limits sr pv).position_value * t.fraction)
    ∧ (fedPivotTradePlan limits sr pv).position_size ≤ limits.max
    ∧ ((m2MinerTradePlan limits sr pv).entry_plan.map Tranche.fraction).sum = 1
    ∧ (∀ t ∈ (m2MinerTradePlan limits sr pv).entry_plan,
        t.value = (m2MinerTradePlan limits sr pv).position_value * t.fraction)
    ∧ (m2MinerTradePlan limits sr pv).position_size ≤ limits.max := by
  have hb : ¬ sr.buy_signal = false := by
    rw [h]
    exact fun hc => Bool.noConfusion hc
  unfold fedPivotTradePlan m2MinerTradePlan
  rw [if_neg hb, if_neg hb]
  refine ⟨?_, ?_, ?_, ?_, ?_, ?_⟩
  · simp [List.sum_cons]
    norm_num
  · intro t ht
    simp only [List.mem_cons, List.not_mem_nil, or_false] at ht
    rcases ht with ht | ht | ht | ht <;> rw [ht]
  · exact min_le_left _ _
  · simp [List.sum_cons]
    norm_num
  · intro t ht
    simp only [List.mem_cons, List.not_mem_nil, or_false] at ht
    rcases ht with ht | ht | ht | ht <;> rw [ht]
  · exact min_le_left _ _

/-- Claim C7 witness: a concrete buying signal result under the moderate
risk profile. -/
theorem c7_trade_plan_invariants_witness :
    (fedPivotTradePlan moderateLimits
      { score1 := 1, score2 := 1, combined_score := 1, buy_signal := true,
        signal_strength := Strength.very_strong, threshold := 70/100 }
      100000).position_size ≤ moderateLimits.max
    ∧ ((m2MinerTradePlan moderateLimits
        { score1 := 1, score2 := 1, combined_score := 1, buy_signal := true,
          signal_strength := Strength.very_strong, threshold := 70/100 }
        100000).entry_plan.map Tranche.fraction).sum = 1 := by
  constructor
  · exact (c7_trade_plan_invariants moderateLimits
      { score1 := 1, score2 := 1, combined_score := 1, buy_signal := true,
        signal_strength := Strength.very_strong, threshold := 70/100 }
      100000 rfl).2.2.1
  · exact (c7_trade_plan_invariants moderateLimits
      { score1 := 1, score2 := 1, combined_score := 1, buy_signal := true,
        signal_strength := Strength.very_strong, threshold := 70/100 }
      100000 rfl).2.2.2.1

/-- Claim C8: in scenario 1 the directional multiplier equals the
specified case table (disregarding the cutting/easing and hiking/
tightening renaming), the rate sub-score is the base score times that
multiplier clamped to 1, and the clamp is applied before the 6/10
weighting in the combined score. -/
theorem c8_directional_multiplier (fd : FedData) (reserves : Option ℚ) (rate : ℚ)
    (h : fd.fed_funds_rate = some rate) :
    directionMultiplier fd.pivot_detected fd.pivot_direction fd.pivot_magnitude
      = spec_directional_multiplier fd.pivot_detected fd.pivot_direction fd.pivot_magnitude
    ∧ calculate_fed_score fd
      = min 1 (baseFedScore rate
          * spec_directional_multiplier fd.pivot_detected fd.pivot_direction fd.pivot_magnitude)
    ∧ (fedPivotSignalStrength fd reserves).combined_score
      = min 1 (baseFedScore rate
          * spec_directional_multiplier fd.pivot_detected fd.pivot_direction fd.pivot_magnitude)
        * (6/10) + reserveScoreOf reserves * (4/10) := by
  have hmul : directionMultiplier fd.pivot_detected fd.pivot_direction fd.pivot_magnitude
      = spec_directional_multiplier fd.pivot_detected fd.pivot_direction fd.pivot_magnitude := by
    cases hd : fd.pivot_detected <;> cases hdir : fd.pivot_direction <;>
      simp [directionMultiplier, spec_directional_multiplier]
  have hscore : calculate_fed_score fd
      = min 1 (baseFedScore rate
          * spec_directional_multiplier fd.pivot_detected fd.pivot_direction fd.pivot_magnitude) := by
    simp only [calculate_fed_score, h]
    rw [hmul]
  refine ⟨hmul, hscore, ?_⟩
  show fedCombinedScore fd reserves = _
  unfold fedCombinedScore
  rw [hscore]

/-- Claim C8 witness: the multiplier table applied at a detected easing
pivot of magnitude 1. -/
theorem c8_directional_multiplier_witness :
    directionMultiplier true PivotDirection.cutting 1
      = spec_directional_multiplier true PivotDirection.cutting 1 := by
  exact (c8_directional_multiplier
    { fed_funds_rate := some (1/2), pivot_detected := true,
      pivot_direction := PivotDirection.cutting, pivot_magnitude := 1 }
    (some 2300000) (1/2) rfl).1

/-- Claim C9: get_all_signals returns one entry per registered scenario in
order; a scenario whose analysis raises contributes exactly the error
entry with buy_signal false and combined_score 0, and every other
scenario contributes the same entry it would contribute if the failing
scenario did not exist. -/
theorem c9_error_isolation (l1 l2 : List (Option Signals)) :
    get_all_signals (l1 ++ none :: l2)
      = get_all_signals l1 ++ entryOf none :: get_all_signals l2
    ∧ (get_all_signals (l1 ++ none :: l2)).length = (l1 ++ none :: l2).length
    ∧ (∀ i : ℕ, (get_all_signals (l1 ++ none :: l2)).get? i
        = ((l1 ++ none :: l2).get? i).map entryOf)
    ∧ (entryOf (none : Option Signals)).signals.buy_signal = false
    ∧ (entryOf (none : Option Signals)).signals.combined_score = 0
    ∧ (entryOf (none : Option Signals)).isError = true := by
  refine ⟨?_, ?_, ?_, rfl, rfl, rfl⟩
  · unfold get_all_signals
    simp
  · unfold get_all_signals
    simp
  · intro i
    unfold get_all_signals
    rw [List.get?_map]

/-- Claim C9 witness: one succeeding and one failing scenario. -/
theorem c9_error_isolation_witness :
    get_all_signals [some { buy_signal := true, combined_score := 1 }, none]
      = get_all_signals [some { buy_signal := true, combined_score := 1 }]
        ++ entryOf none :: get_all_signals [] := by
  exact (c9_error_isolation [some { buy_signal := true, combined_score := 1 }] []).1

/-- Claim C10: in scenario 2 the extreme_expansion override replaces the
strength tier by strong_m2_override whenever the combined score is at
least 6/10, including at or above the 75/100 threshold and at or above
8/10, where the plain classification would have been very_strong. -/
theorem c10_override_displaces_tiers (md : M2Data) (miner : Option (RibbonSignal × Bool))
    (h1 : md.growth_level = some GrowthLevel.extreme_expansion)
    (h2 : 6/10 ≤ (m2MinerSignalStrength md miner).combined_score) :
    (m2MinerSignalStrength md miner).signal_strength = Strength.strong_m2_override
    ∧ (m2MinerSignalStrength md miner).buy_signal = true
    ∧ (8/10 ≤ (m2MinerSignalStrength md miner).combined_score →
        strengthTier ((m2MinerSignalStrength md miner).combined_score)
          = Strength.very_strong) := by
  rw [m2SignalStrength_combined] at h2
  refine ⟨?_, ?_, ?_⟩
  · unfold m2MinerSignalStrength
    rw [if_pos ⟨h1, h2⟩]
  · unfold m2MinerSignalStrength
    rw [if_pos ⟨h1, h2⟩]
  · intro h3
    rw [m2SignalStrength_combined] at h3 ⊢
    unfold strengthTier
    rw [if_pos h3]

/-- Claim C10 witness: extreme growth with a full miner score gives
combined score 1, at which the plain tier would be very_strong but the
override tier is produced. -/
theorem c10_override_displaces_tiers_witness :
    (m2MinerSignalStrength (get_m2_data (some (2/10)) none)
      (some (RibbonSignal.buy, false))).signal_strength = Strength.strong_m2_override := by
  refine (c10_override_displaces_tiers (get_m2_data (some (2/10)) none)
    (some (RibbonSignal.buy, false)) ?_ ?_).1
  · norm_num [get_m2_data, classifyM2Growth, m2Extreme]
  · norm_num [m2MinerSignalStrength, m2CombinedScore, calculate_m2_score, get_m2_data,
      classifyM2Growth, m2Extreme, m2Strong, m2Normal, m2Contraction, minerScoreOf,
      hashRibbonScore, signalThreshold2, strengthTier, min_def, max_def]

end BitcoinModel
